import Mathlib

/-!
Verification of the configuration reconciliation controller of the
AdGuard browser extension (MV3 engine), shallowly embedded from
`Extension/src/background/engine/engine-mv3.ts` and
`Extension/src/background/api/filters/quick-fixes.ts`.

The engine wraps an external runtime (`TsWebExtension`): `getConfiguration`
assembles a `Configuration` from the current app state, `update` pushes it
into the runtime via `api.configure`, records the resulting limits, notifies
listeners, optionally checks the rule limits, and disables user rules the
runtime rejected.  `debounceUpdate` is a lodash trailing-edge debounce of
`update` with a 1000 ms window.
-/

namespace Adguard

/-- The slice of the settings snapshot (`SettingsApi.getTsWebExtConfiguration`)
that `Engine.getConfiguration` inspects: the allow-list inversion flag.  The
rest of the settings object is passed through to the `Configuration`
unchanged and is modelled by the opaque tag `rest`. -/
structure TsWebExtSettings where
  allowlistInverted : Bool
  rest : Nat
deriving DecidableEq, Repr

/-- Snapshot of the app state read by `Engine.getConfiguration` and
`Engine.update`: the return values of the API calls the engine makes
(`FiltersApi.getEnabledFilters`, `CustomFilterApi.isCustomFilter`,
`SettingsApi.getTsWebExtConfiguration`, `AllowlistApi.*`, `UserRulesApi.*`,
`FiltersStorage.get`). -/
structure AppState where
  enabledFilters : List Nat
  isCustomFilter : Nat → Bool
  settings : TsWebExtSettings
  allowlistEnabled : Bool
  invertedAllowlistDomains : List String
  allowlistDomains : List String
  userRulesEnabled : Bool
  userRules : List String
  filtersStorage : Nat → List String

/-- The `Configuration` record built by `Engine.getConfiguration` and handed
to `api.configure` / `api.start`. -/
structure Configuration where
  filteringLogEnabled : Bool
  customFilters : List (Nat × String)
  verbose : Bool
  staticFiltersIds : List Nat
  userrules : List String
  allowlist : List String
  settings : TsWebExtSettings
  filtersPath : String
  ruleSetsPath : String

/-- Modelled from the spec: `UserRulesApi.convertRules` is called by
`Engine.getConfiguration` but its body is not among the provided sources.
The spec's user-rules resolution step lists dropping empty lines and
de-duplication as the only transformations of the user-rule lines, so the
conversion is modelled as the identity on rule lines. -/
def convertRules (rules : List String) : List String := rules

/-- Mirrors `Array.from(new Set(xs))` in JavaScript: de-duplicate a list,
keeping the first occurrence of each element in its original position. -/
def dedupFirst : List String → List String
  | [] => []
  | x :: xs => x :: dedupFirst (xs.filter (fun y => y ≠ x))
termination_by l => l.length
decreasing_by
  simp only [List.length_cons]
  exact Nat.lt_succ_of_le (List.length_filter_le _ _)

/-- `Engine.getConfiguration`: builds the tswebextension configuration from
the current app state (engine-mv3.ts, lines 174–229). -/
def Engine.getConfiguration (s : AppState) : Configuration :=
  let staticFiltersIds := s.enabledFilters.filter (fun id => ¬ s.isCustomFilter id)
  let settings := s.settings
  let allowlist : List String :=
    if s.allowlistEnabled then
      if settings.allowlistInverted then s.invertedAllowlistDomains
      else s.allowlistDomains
    else []
  let userrules : List String :=
    if s.userRulesEnabled then
      convertRules (dedupFirst (s.userRules.filter (fun r => r ≠ "")))
    else []
  let customFiltersIds := s.enabledFilters.filter (fun id => s.isCustomFilter id)
  let customFilters := customFiltersIds.map
    (fun id => (id, String.intercalate "\n" (s.filtersStorage id)))
  { filteringLogEnabled := false
    customFilters := customFilters
    verbose := false
    staticFiltersIds := staticFiltersIds
    userrules := userrules
    allowlist := allowlist
    settings := settings
    filtersPath := "filters/"
    ruleSetsPath := "filters/declarative" }

/-- One per-rule error inside `ConfigurationResult.dynamicRules.errors`.
The code tests `'networkRule' in error && error.networkRule` and, when
present, reads `error.networkRule.getText()`; the optional text is all the
remediation path uses, so the error is modelled by that optional text. -/
structure DynamicRuleError where
  networkRule : Option String
deriving DecidableEq, Repr

/-- The `dynamicRules` part of the result returned by `api.configure`. -/
structure DynamicRulesStatus where
  errors : List DynamicRuleError
deriving DecidableEq, Repr

/-- The result of a successful `api.configure` / `api.start` call, as read by
`Engine.update`: the optional dynamic-rules status with its per-rule errors,
and the static-filters status errors, which the update path never reads. -/
structure ApplyResult where
  dynamicRules : Option DynamicRulesStatus
  staticFiltersErrors : List DynamicRuleError
deriving DecidableEq, Repr

/-- A wholesale failure of the `api.configure` call. -/
structure ApplyError where
  msg : String
deriving DecidableEq, Repr

/-- Observable side effects of one `Engine.update` run, in program order:
the `api.configure` call, `rulesLimitsService.set`,
`listeners.notifyListeners(RequestFilterUpdated)`,
`RulesLimitsService.checkFiltersLimitsChange`,
`UserRulesApi.disableUserRules`, and the corrective re-apply request that
remediation sends to the controller. -/
inductive Event where
  | configureCall
  | setLimits (result : ApplyResult)
  | notifyListeners
  | limitsCheck
  | disableUserRules (rules : List String)
  | requestUpdate
deriving DecidableEq, Repr

/-- Outcome of one `Engine.update` run: the ordered effects it performed,
and the error it surfaced to its caller, if any. -/
structure UpdateOutcome where
  events : List Event
  error : Option ApplyError
deriving DecidableEq, Repr

/-- The rule texts collected from `result.dynamicRules.errors` by
`Engine.update` (lines 148–159): the `networkRule.getText()` of every error
that carries a network rule; empty when `dynamicRules` is absent. -/
def invalidDynamicRules (result : ApplyResult) : List String :=
  match result.dynamicRules with
  | none => []
  | some dr => dr.errors.filterMap (fun e => e.networkRule)

/-- The argument of the `UserRulesApi.disableUserRules` call in
`Engine.update` (line 167): the user rules of the just-applied configuration
whose text is among the invalid dynamic rule texts. -/
def remediationTargets (userrules : List String) (result : ApplyResult) : List String :=
  userrules.filter (fun r => r ∈ invalidDynamicRules result)

/-- `Engine.update` (engine-mv3.ts, lines 132–169), with the runtime's
`api.configure` passed in as a function from the configuration to either a
wholesale error or an `ApplyResult`.  On a wholesale error nothing after the
`configure` call runs and the error propagates to the caller.  On success
the limits are recorded and listeners notified; the limits check runs unless
`skipLimitsCheck` is set; if any error carries a network-rule text, the
matching user rules are disabled.

The trailing `requestUpdate` effect is modelled from the spec:
`UserRulesApi.disableUserRules` is not among the provided sources, and the
spec says the remediator, after writing the disabled state for the matched
rules, signals the controller to re-run the cycle — closing the loop unless
the pass found zero matches. -/
def Engine.update (skipLimitsCheck : Bool) (s : AppState)
    (configure : Configuration → Except ApplyError ApplyResult) : UpdateOutcome :=
  let configuration := Engine.getConfiguration s
  match configure configuration with
  | .error e => ⟨[Event.configureCall], some e⟩
  | .ok result =>
    let invalid := invalidDynamicRules result
    ⟨[Event.configureCall, Event.setLimits result, Event.notifyListeners]
      ++ (if skipLimitsCheck then [] else [Event.limitsCheck])
      ++ (if invalid.isEmpty then []
          else
            let disabled := remediationTargets configuration.userrules result
            Event.disableUserRules disabled ::
              (if disabled.isEmpty then [] else [Event.requestUpdate])),
     none⟩

/-- `Engine.UPDATE_TIMEOUT_MS` (engine-mv3.ts, line 60). -/
def Engine.UPDATE_TIMEOUT_MS : Nat := 1000

/-- Models the lodash trailing-edge `debounce` wrapping `Engine.update`
(engine-mv3.ts, line 73): each call restarts a `wait`-ms timer; when the
timer expires with no newer call having arrived, the wrapped function is
invoked with the last call's captured state.  `calls` is the time-ordered
list of (timestamp, captured app state) pairs of the debounced calls; the
output is the list of (invocation time, applied state) pairs. -/
def debounceInvocations (wait : Nat) : List (Nat × AppState) → List (Nat × AppState)
  | [] => []
  | [(t, s)] => [(t + wait, s)]
  | (t, s) :: (t', s') :: rest =>
    if t + wait ≤ t' then
      (t + wait, s) :: debounceInvocations wait ((t', s') :: rest)
    else
      debounceInvocations wait ((t', s') :: rest)

/-- The action `Engine.setFilteringState` takes on the engine. -/
inductive EngineAction where
  | start
  | stop
deriving DecidableEq, Repr

/-- Whether the engine is running after the action: `start` leaves the
tswebextension started, `stop` leaves it stopped. -/
def EngineAction.running : EngineAction → Bool
  | .start => true
  | .stop => false

/-- `Engine.setFilteringState` (engine-mv3.ts, lines 236–242): stops the
engine when `isFilteringEnabled` is true, starts it when false. -/
def Engine.setFilteringState (isFilteringEnabled : Bool) : EngineAction :=
  if isFilteringEnabled then EngineAction.stop else EngineAction.start

/-- `PreprocessedFilterList` from `@adguard/tsurlfilter` as used by
`QuickFixesRulesApi`: raw text, serialized rule list, and the source and
conversion maps (records modelled as association lists). -/
structure PreprocessedFilterList where
  rawFilterList : String
  filterList : List String
  sourceMap : List (Nat × Nat)
  conversionMap : List (Nat × String)
deriving DecidableEq, Repr

/-- `QuickFixesRulesApi.getQuickFixesRules` (quick-fixes.ts, lines 78–91),
with the storage lookup `FiltersStorage.getAllFilterData(QuickFixesFilterId)`
passed in as its optional result: absent data yields the empty preprocessed
filter list, present data is returned unchanged. -/
def QuickFixesRulesApi.getQuickFixesRules
    (stored : Option PreprocessedFilterList) : PreprocessedFilterList :=
  match stored with
  | none =>
    { rawFilterList := ""
      filterList := []
      sourceMap := []
      conversionMap := [] }
  | some data => data

/-- Reference de-duplication written from the spec's words: walk the lines
keeping each line the first time it is seen (`seen` accumulates the lines
already emitted). -/
def specKeepFirstOccurrence : List String → List String → List String
  | _, [] => []
  | seen, x :: xs =>
    if x ∈ seen then specKeepFirstOccurrence seen xs
    else x :: specKeepFirstOccurrence (x :: seen) xs

/-- Reference user-rules resolution written from the spec's words: drop
empty lines, then de-duplicate preserving the first occurrence. -/
def specUserRulesResolution (lines : List String) : List String :=
  specKeepFirstOccurrence [] (lines.filter (fun r => r ≠ ""))

theorem dedupFirst_sublist (l : List String) : (dedupFirst l).Sublist l := by
  induction l using dedupFirst.induct with
  | case1 => simp [dedupFirst]
  | case2 x xs ih =>
    rw [dedupFirst]
    exact (ih.trans (List.filter_sublist xs)).cons₂ x

theorem mem_of_mem_dedupFirst {y : String} {l : List String}
    (h : y ∈ dedupFirst l) : y ∈ l :=
  (dedupFirst_sublist l).subset h

theorem mem_dedupFirst_of_mem {y : String} :
    ∀ {l : List String}, y ∈ l → y ∈ dedupFirst l := by
  intro l
  induction l using dedupFirst.induct with
  | case1 => intro h; exact absurd h (List.not_mem_nil y)
  | case2 x xs ih =>
    intro h
    rw [dedupFirst]
    rcases List.mem_cons.mp h with hyx | hyxs
    · exact hyx ▸ List.mem_cons_self _ _
    · by_cases hne : y = x
      · exact hne ▸ List.mem_cons_self _ _
      · exact List.mem_cons_of_mem _
          (ih (List.mem_filter.mpr ⟨hyxs, by simpa using hne⟩))

theorem dedupFirst_nodup (l : List String) : (dedupFirst l).Nodup := by
  induction l using dedupFirst.induct with
  | case1 => simp [dedupFirst]
  | case2 x xs ih =>
    rw [dedupFirst]
    refine List.nodup_cons.mpr ⟨?_, ih⟩
    intro hmem
    have := List.mem_filter.mp (mem_of_mem_dedupFirst hmem)
    simp at this

theorem specKeepFirstOccurrence_eq_dedupFirst_filter
    (l : List String) : ∀ seen : List String,
    specKeepFirstOccurrence seen l = dedupFirst (l.filter (fun y => y ∉ seen)) := by
  induction l with
  | nil => intro seen; simp [specKeepFirstOccurrence, dedupFirst]
  | cons x xs ih =>
    intro seen
    by_cases hx : x ∈ seen
    · rw [specKeepFirstOccurrence, if_pos hx, ih seen]
      congr 1
      simp [List.filter_cons, hx]
    · rw [specKeepFirstOccurrence, if_neg hx, ih (x :: seen)]
      simp only [List.filter_cons]
      rw [if_pos (by simpa using hx)]
      rw [dedupFirst]
      congr 1
      rw [List.filter_filter]
      congr 1
      apply List.filter_congr
      intro a _
      by_cases h1 : a ∈ seen <;> by_cases h2 : a = x <;> simp [h1, h2]

theorem dedupFirst_eq_specKeepFirstOccurrence (l : List String) :
    dedupFirst l = specKeepFirstOccurrence [] l := by
  rw [specKeepFirstOccurrence_eq_dedupFirst_filter l []]
  congr 1
  simp

/-- C1: for every apply cycle, the user-rule list of the built Configuration
contains no empty strings and no duplicates and is an order-preserving
subsequence of the raw user rules; when the user-rule feature is enabled it
is exactly the spec's resolution (drop empties, keep first occurrences), and
in particular raw input `["a", "b", "a", "", "b"]` yields `["a", "b"]`. -/
theorem userrules_deduplicated :
    (∀ s : AppState,
        "" ∉ (Engine.getConfiguration s).userrules
        ∧ (Engine.getConfiguration s).userrules.Nodup
        ∧ (Engine.getConfiguration s).userrules.Sublist s.userRules)
    ∧ (∀ s : AppState, s.userRulesEnabled = true →
        (Engine.getConfiguration s).userrules = specUserRulesResolution s.userRules)
    ∧ (∀ s : AppState, s.userRulesEnabled = true →
        s.userRules = ["a", "b", "a", "", "b"] →
        (Engine.getConfiguration s).userrules = ["a", "b"]) := by
  have hrules : ∀ s : AppState, (Engine.getConfiguration s).userrules =
      if s.userRulesEnabled then
        dedupFirst (s.userRules.filter (fun r => r ≠ "")) else [] := by
    intro s
    simp [Engine.getConfiguration, convertRules]
  refine ⟨fun s => ?_, fun s hs => ?_, fun s hs hin => ?_⟩
  · rw [hrules]
    by_cases hs : s.userRulesEnabled
    · rw [if_pos hs]
      refine ⟨fun hmem => ?_, dedupFirst_nodup _,
        (dedupFirst_sublist _).trans (List.filter_sublist _)⟩
      have := List.mem_filter.mp (mem_of_mem_dedupFirst hmem)
      simp at this
    · rw [if_neg hs]
      exact ⟨List.not_mem_nil _, List.nodup_nil, List.nil_sublist _⟩
  · rw [hrules, if_pos hs, specUserRulesResolution,
      dedupFirst_eq_specKeepFirstOccurrence]
  · rw [hrules, if_pos hs, hin]
    simp [dedupFirst, List.filter]

/-- A concrete app state used to instantiate the general theorems. -/
def sampleState : AppState :=
  { enabledFilters := [1, 2]
    isCustomFilter := fun id => id == 2
    settings := { allowlistInverted := false, rest := 0 }
    allowlistEnabled := true
    invertedAllowlistDomains := ["inv.example"]
    allowlistDomains := ["allow.example"]
    userRulesEnabled := true
    userRules := ["a", "b", "a", "", "b"]
    filtersStorage := fun _ => ["rule1", "rule2"] }

/-- Witness for C1: on a concrete state holding the raw user rules
`["a", "b", "a", "", "b"]`, the built configuration's user rules are
`["a", "b"]`. -/
theorem userrules_deduplicated_witness :
    (Engine.getConfiguration sampleState).userrules = ["a", "b"] :=
  userrules_deduplicated.2.2 sampleState rfl rfl

/-- Sample state with the allow-list feature disabled. -/
def sampleStateAllowlistOff : AppState :=
  { sampleState with allowlistEnabled := false }

/-- Sample state with the inverted allow-list flag set. -/
def sampleStateInverted : AppState :=
  { sampleState with settings := { allowlistInverted := true, rest := 0 } }

/-- C7: allow-list resolution in the built Configuration — empty when the
allow-list feature is disabled, the inverted domain list when the settings'
inverted flag is set, the normal allow-list domain list otherwise. -/
theorem allowlist_resolution (s : AppState) :
    (s.allowlistEnabled = false → (Engine.getConfiguration s).allowlist = [])
    ∧ (s.allowlistEnabled = true → s.settings.allowlistInverted = true →
        (Engine.getConfiguration s).allowlist = s.invertedAllowlistDomains)
    ∧ (s.allowlistEnabled = true → s.settings.allowlistInverted = false →
        (Engine.getConfiguration s).allowlist = s.allowlistDomains) := by
  refine ⟨fun h => ?_, fun h hi => ?_, fun h hi => ?_⟩
  · simp [Engine.getConfiguration, h]
  · simp [Engine.getConfiguration, h, hi]
  · simp [Engine.getConfiguration, h, hi]

/-- Witness for C7: the three branches of the allow-list resolution on
concrete states. -/
theorem allowlist_resolution_witness :
    (Engine.getConfiguration sampleStateAllowlistOff).allowlist = []
    ∧ (Engine.getConfiguration sampleStateInverted).allowlist
        = sampleStateInverted.invertedAllowlistDomains
    ∧ (Engine.getConfiguration sampleState).allowlist
        = sampleState.allowlistDomains :=
  ⟨(allowlist_resolution sampleStateAllowlistOff).1 rfl,
   (allowlist_resolution sampleStateInverted).2.1 rfl rfl,
   (allowlist_resolution sampleState).2.2 rfl rfl⟩

/-- C9: `setFilteringState` stops the engine when its argument is true and
starts it when false, so the resulting running state is the negation of the
argument. -/
theorem setFilteringState_negates (b : Bool) :
    Engine.setFilteringState b
      = (if b then EngineAction.stop else EngineAction.start)
    ∧ (Engine.setFilteringState b).running = !b := by
  cases b <;> simp [Engine.setFilteringState, EngineAction.running]

/-- C10: `getQuickFixesRules` is total — absent storage data yields the
empty preprocessed filter list, present data is returned unchanged. -/
theorem getQuickFixesRules_total :
    QuickFixesRulesApi.getQuickFixesRules none
      = { rawFilterList := ""
          filterList := []
          sourceMap := []
          conversionMap := [] }
    ∧ (∀ d : PreprocessedFilterList,
        QuickFixesRulesApi.getQuickFixesRules (some d) = d) :=
  ⟨rfl, fun _ => rfl⟩

/-- The per-rule errors of an apply result's dynamic rules (empty when the
result has no `dynamicRules` part). -/
def dynamicErrors (result : ApplyResult) : List DynamicRuleError :=
  match result.dynamicRules with
  | none => []
  | some dr => dr.errors

theorem invalidDynamicRules_eq_filterMap (result : ApplyResult) :
    invalidDynamicRules result
      = (dynamicErrors result).filterMap (fun e => e.networkRule) := by
  cases hr : result.dynamicRules <;>
    simp [invalidDynamicRules, dynamicErrors, hr]

/-- C2: a rule is passed to `disableUserRules` iff it is a user rule of the
just-applied configuration whose exact text is reported by some dynamic-rule
error carrying a network rule; the selection never depends on the
static-filter errors of the result; and any `disableUserRules` effect of an
`update` run disables exactly the remediation targets of the applied
configuration's user rules. -/
theorem update_remediation_exact :
    (∀ (u : List String) (res : ApplyResult) (x : String),
        x ∈ remediationTargets u res ↔
          x ∈ u ∧ ∃ e ∈ dynamicErrors res, e.networkRule = some x)
    ∧ (∀ (u : List String) (res : ApplyResult) (se : List DynamicRuleError),
        remediationTargets u { res with staticFiltersErrors := se }
          = remediationTargets u res)
    ∧ (∀ (skip : Bool) (s : AppState)
        (configure : Configuration → Except ApplyError ApplyResult)
        (res : ApplyResult) (d : List String),
        configure (Engine.getConfiguration s) = Except.ok res →
        Event.disableUserRules d ∈ (Engine.update skip s configure).events →
        d = remediationTargets (Engine.getConfiguration s).userrules res) := by
  refine ⟨fun u res x => ?_, fun u res se => rfl, fun skip s configure res d hok hmem => ?_⟩
  · unfold remediationTargets
    rw [List.mem_filter]
    simp [invalidDynamicRules_eq_filterMap, List.mem_filterMap]
  · simp only [Engine.update, hok] at hmem
    split_ifs at hmem <;> simp_all

/-- The apply result used in the concrete runs: one dynamic-rule error
carrying the network rule text `"a"`, one error without a network rule, and
one static-filter error. -/
def sampleErrorResult : ApplyResult :=
  { dynamicRules := some { errors := [{ networkRule := some "a" }, { networkRule := none }] }
    staticFiltersErrors := [{ networkRule := some "zz" }] }

/-- A runtime whose configure call always succeeds with
`sampleErrorResult`. -/
def erroringConfigure : Configuration → Except ApplyError ApplyResult :=
  fun _ => Except.ok sampleErrorResult

/-- A runtime whose configure call always fails wholesale. -/
def failingConfigure : Configuration → Except ApplyError ApplyResult :=
  fun _ => Except.error { msg := "configure failed" }

theorem sampleState_userrules :
    (Engine.getConfiguration sampleState).userrules = ["a", "b"] := by
  simp [Engine.getConfiguration, convertRules, sampleState, dedupFirst, List.filter]

theorem update_sample_outcome :
    Engine.update false sampleState erroringConfigure =
      ⟨[Event.configureCall, Event.setLimits sampleErrorResult, Event.notifyListeners,
        Event.limitsCheck, Event.disableUserRules ["a"], Event.requestUpdate], none⟩ := by
  have hr : remediationTargets (Engine.getConfiguration sampleState).userrules
      sampleErrorResult = ["a"] := by
    rw [sampleState_userrules]
    rfl
  have hinv : invalidDynamicRules sampleErrorResult = ["a"] := rfl
  simp [Engine.update, erroringConfigure, hinv, hr]

/-- Witness for C2: in the concrete run against `erroringConfigure`, the
disabled list `["a"]` is exactly the remediation targets of the applied
configuration's user rules. -/
theorem update_remediation_exact_witness :
    ("a" : String) :: [] = remediationTargets
      (Engine.getConfiguration sampleState).userrules sampleErrorResult :=
  update_remediation_exact.2.2 false sampleState erroringConfigure
    sampleErrorResult ["a"] rfl
    (by rw [update_sample_outcome]; simp)

/-- C4: when the wholesale configure call fails, the update performs no
effect besides the configure call itself — in particular the rule-limits
tracker is not written and no rules are disabled — and the error is
surfaced to the caller. -/
theorem wholesale_failure_no_mutation (skip : Bool) (s : AppState)
    (configure : Configuration → Except ApplyError ApplyResult) (e : ApplyError)
    (h : configure (Engine.getConfiguration s) = Except.error e) :
    (Engine.update skip s configure).events = [Event.configureCall]
    ∧ (∀ r, Event.setLimits r ∉ (Engine.update skip s configure).events)
    ∧ (∀ rules, Event.disableUserRules rules ∉ (Engine.update skip s configure).events)
    ∧ (Engine.update skip s configure).error = some e := by
  have hu : Engine.update skip s configure = ⟨[Event.configureCall], some e⟩ := by
    simp [Engine.update, h]
  rw [hu]
  refine ⟨rfl, fun r => ?_, fun rules => ?_, rfl⟩ <;> simp

/-- Witness for C4: the concrete run against the always-failing configure
performs only the configure call and surfaces the error. -/
theorem wholesale_failure_no_mutation_witness :
    (Engine.update false sampleState failingConfigure).events = [Event.configureCall]
    ∧ (∀ r, Event.setLimits r ∉ (Engine.update false sampleState failingConfigure).events)
    ∧ (∀ rules, Event.disableUserRules rules
        ∉ (Engine.update false sampleState failingConfigure).events)
    ∧ (Engine.update false sampleState failingConfigure).error
        = some { msg := "configure failed" } :=
  wholesale_failure_no_mutation false sampleState failingConfigure
    { msg := "configure failed" } rfl

/-- C6: after a successful apply, the limits check runs iff the caller did
not pass `skipLimitsCheck`, while recording the limits and notifying
listeners happen for either flag value. -/
theorem limits_check_iff_not_skipped (skip : Bool) (s : AppState)
    (configure : Configuration → Except ApplyError ApplyResult) (res : ApplyResult)
    (h : configure (Engine.getConfiguration s) = Except.ok res) :
    (Event.limitsCheck ∈ (Engine.update skip s configure).events ↔ skip = false)
    ∧ Event.setLimits res ∈ (Engine.update skip s configure).events
    ∧ Event.notifyListeners ∈ (Engine.update skip s configure).events := by
  by_cases hinv : (invalidDynamicRules res).isEmpty <;>
    by_cases hrem : (remediationTargets (Engine.getConfiguration s).userrules res).isEmpty <;>
    cases skip <;>
    simp [Engine.update, h, hinv, hrem]

/-- Witness for C6: on the concrete run with the flag unset the limits
check happens, and the limits are recorded and listeners notified. -/
theorem limits_check_iff_not_skipped_witness :
    (Event.limitsCheck ∈ (Engine.update false sampleState erroringConfigure).events
      ↔ false = false)
    ∧ Event.setLimits sampleErrorResult
        ∈ (Engine.update false sampleState erroringConfigure).events
    ∧ Event.notifyListeners ∈ (Engine.update false sampleState erroringConfigure).events :=
  limits_check_iff_not_skipped false sampleState erroringConfigure sampleErrorResult rfl

/-- Recognizes the `disableUserRules` effect. -/
def Event.isDisable : Event → Bool
  | Event.disableUserRules _ => true
  | _ => false

/-- C3: in every update outcome, remediation runs at most once and the
corrective `requestUpdate` is signalled at most once; whenever remediation
disabled at least one rule the outcome ends with that disable immediately
followed by one `requestUpdate`; and a `requestUpdate` only ever follows a
non-empty disable. -/
theorem remediation_signals_once (skip : Bool) (s : AppState)
    (configure : Configuration → Except ApplyError ApplyResult)
    (events : List Event) (h : (Engine.update skip s configure).events = events) :
    (events.countP Event.isDisable ≤ 1)
    ∧ (events.count Event.requestUpdate ≤ 1)
    ∧ (∀ d, Event.disableUserRules d ∈ events → d ≠ [] →
        ∃ pre, events = pre ++ [Event.disableUserRules d, Event.requestUpdate])
    ∧ (Event.requestUpdate ∈ events →
        ∃ d, d ≠ [] ∧ Event.disableUserRules d ∈ events) := by
  subst h
  rcases hconf : configure (Engine.getConfiguration s) with e | res
  · refine ⟨?_, ?_, fun d hmem hne => ?_, fun hmem => ?_⟩ <;>
      simp_all [Engine.update, Event.isDisable]
  · have hu : (Engine.update skip s configure).events
        = [Event.configureCall, Event.setLimits res, Event.notifyListeners]
          ++ (if skip then [] else [Event.limitsCheck])
          ++ (if (invalidDynamicRules res).isEmpty then []
              else
                Event.disableUserRules
                    (remediationTargets (Engine.getConfiguration s).userrules res) ::
                  (if (remediationTargets (Engine.getConfiguration s).userrules res).isEmpty
                    then [] else [Event.requestUpdate])) := by
      simp [Engine.update, hconf]
    rw [hu]
    by_cases hinv : (invalidDynamicRules res).isEmpty <;>
      by_cases hrem : (remediationTargets (Engine.getConfiguration s).userrules res).isEmpty <;>
      cases skip <;>
      refine ⟨?_, ?_, fun d hmem hne => ?_, fun hmem => ?_⟩ <;>
      simp_all [Event.isDisable, List.countP_append, List.count_append,
        List.countP_cons, List.count_cons]
    case neg.false.refine_3 =>
      exact ⟨[Event.configureCall, Event.setLimits res, Event.notifyListeners,
        Event.limitsCheck], by simp [hmem]⟩
    case neg.true.refine_3 =>
      exact ⟨[Event.configureCall, Event.setLimits res, Event.notifyListeners],
        by simp [hmem]⟩

/-- The event trace of the concrete remediating run. -/
def sampleEvents : List Event :=
  [Event.configureCall, Event.setLimits sampleErrorResult, Event.notifyListeners,
   Event.limitsCheck, Event.disableUserRules ["a"], Event.requestUpdate]

/-- Witness for C3: the concrete remediating run disables once and signals
exactly one corrective requestUpdate, right after the disable. -/
theorem remediation_signals_once_witness :
    (sampleEvents.countP Event.isDisable ≤ 1)
    ∧ (sampleEvents.count Event.requestUpdate ≤ 1)
    ∧ (∀ d, Event.disableUserRules d ∈ sampleEvents → d ≠ [] →
        ∃ pre, sampleEvents = pre ++ [Event.disableUserRules d, Event.requestUpdate])
    ∧ (Event.requestUpdate ∈ sampleEvents →
        ∃ d, d ≠ [] ∧ Event.disableUserRules d ∈ sampleEvents) :=
  remediation_signals_once false sampleState erroringConfigure sampleEvents
    (by rw [update_sample_outcome]; rfl)

theorem debounce_burst_aux (wait : Nat) :
    ∀ (rest : List (Nat × AppState)) (c : Nat × AppState),
    List.Chain' (fun a b => a.1 < b.1 ∧ b.1 < a.1 + wait) (c :: rest) →
    debounceInvocations wait (c :: rest)
      = [(((c :: rest).getLastD c).1 + wait, ((c :: rest).getLastD c).2)] := by
  intro rest
  induction rest with
  | nil =>
    intro c _
    simp [debounceInvocations]
  | cons c' rest' ih =>
    intro c hchain
    rw [List.chain'_cons] at hchain
    obtain ⟨⟨h1, h2⟩, hchain'⟩ := hchain
    obtain ⟨t, s⟩ := c
    obtain ⟨t', s'⟩ := c'
    rw [debounceInvocations]
    rw [if_neg (by omega)]
    rw [ih (t', s') hchain']
    simp [List.getLastD]

theorem mem_debounceInvocations (wait : Nat) :
    ∀ (l : List (Nat × AppState)) (x : Nat × AppState),
    x ∈ debounceInvocations wait l → ∃ c ∈ l, x = (c.1 + wait, c.2) := by
  intro l
  induction l using debounceInvocations.induct wait with
  | case1 => intro x hx; simp [debounceInvocations] at hx
  | case2 t s =>
    intro x hx
    simp [debounceInvocations] at hx
    exact ⟨(t, s), by simp, by simp [hx]⟩
  | case3 t s t' s' rest hle ih =>
    intro x hx
    rw [debounceInvocations, if_pos hle] at hx
    rcases List.mem_cons.mp hx with h | h
    · exact ⟨(t, s), by simp, by simp [h]⟩
    · obtain ⟨c, hc, hxc⟩ := ih x h
      exact ⟨c, List.mem_cons_of_mem _ hc, hxc⟩
  | case4 t s t' s' rest hlt ih =>
    intro x hx
    rw [debounceInvocations, if_neg hlt] at hx
    obtain ⟨c, hc, hxc⟩ := ih x hx
    exact ⟨c, List.mem_cons_of_mem _ hc, hxc⟩

/-- C5: any non-empty burst of debounced update requests whose consecutive
gaps stay inside the debounce window produces exactly one invocation — at
the trailing edge, one window after the last request, with the last
request's captured state — the window is the engine's 1000 ms constant, and
each invocation performs exactly one configure call. -/
theorem debounce_coalesces_burst (calls : List (Nat × AppState))
    (c : Nat × AppState) (rest : List (Nat × AppState))
    (h : calls = c :: rest)
    (hburst : List.Chain'
      (fun a b => a.1 < b.1 ∧ b.1 < a.1 + Engine.UPDATE_TIMEOUT_MS) calls) :
    debounceInvocations Engine.UPDATE_TIMEOUT_MS calls
      = [((calls.getLastD c).1 + Engine.UPDATE_TIMEOUT_MS, (calls.getLastD c).2)]
    ∧ Engine.UPDATE_TIMEOUT_MS = 1000
    ∧ (∀ (skip : Bool) (s : AppState)
        (configure : Configuration → Except ApplyError ApplyResult),
        (Engine.update skip s configure).events.count Event.configureCall = 1) := by
  subst h
  refine ⟨debounce_burst_aux Engine.UPDATE_TIMEOUT_MS rest c hburst, rfl, ?_⟩
  intro skip s configure
  rcases hconf : configure (Engine.getConfiguration s) with e | res
  · simp [Engine.update, hconf]
  · by_cases hinv : (invalidDynamicRules res).isEmpty <;>
      by_cases hrem : (remediationTargets (Engine.getConfiguration s).userrules res).isEmpty <;>
      cases skip <;>
      simp [Engine.update, hconf, hinv, hrem, List.count_append, List.count_cons]

/-- A concrete burst of three debounced requests, 300 ms apart. -/
def sampleCalls : List (Nat × AppState) :=
  [(0, sampleState), (300, sampleState), (600, sampleState)]

/-- Witness for C5: the concrete three-request burst produces exactly one
invocation, at 1600 ms, with the last request's state. -/
theorem debounce_coalesces_burst_witness :
    debounceInvocations Engine.UPDATE_TIMEOUT_MS sampleCalls
      = [((sampleCalls.getLastD (0, sampleState)).1 + Engine.UPDATE_TIMEOUT_MS,
          (sampleCalls.getLastD (0, sampleState)).2)]
    ∧ Engine.UPDATE_TIMEOUT_MS = 1000
    ∧ (∀ (skip : Bool) (s : AppState)
        (configure : Configuration → Except ApplyError ApplyResult),
        (Engine.update skip s configure).events.count Event.configureCall = 1) :=
  debounce_coalesces_burst sampleCalls (0, sampleState)
    [(300, sampleState), (600, sampleState)] rfl
    (by simp [sampleCalls, List.chain'_cons, Engine.UPDATE_TIMEOUT_MS])

theorem debounce_pairwise (wait : Nat) :
    ∀ (l : List (Nat × AppState)),
    l.Pairwise (fun a b => a.1 ≤ b.1) →
    (debounceInvocations wait l).Pairwise (fun a b => a.1 + wait ≤ b.1) := by
  intro l
  induction l using debounceInvocations.induct wait with
  | case1 => intro _; simp [debounceInvocations]
  | case2 t s => intro _; simp [debounceInvocations]
  | case3 t s t' s' rest hle ih =>
    intro hp
    rw [List.pairwise_cons] at hp
    obtain ⟨hhead, htail⟩ := hp
    rw [debounceInvocations, if_pos hle]
    rw [List.pairwise_cons]
    refine ⟨fun b hb => ?_, ih htail⟩
    obtain ⟨c, hc, hbc⟩ := mem_debounceInvocations wait _ b hb
    have hc1 : t' ≤ c.1 := by
      rcases List.mem_cons.mp hc with h | h
      · simp [h]
      · exact (List.pairwise_cons.mp htail).1 c h
    simp only [hbc]
    omega
  | case4 t s t' s' rest hlt ih =>
    intro hp
    rw [List.pairwise_cons] at hp
    rw [debounceInvocations, if_neg hlt]
    exact ih hp.2

/-- Start times of the configure calls: each debounce invocation starts an
`Engine.update` run, whose first effect is the `api.configure` call. -/
def configureStartTimes (wait : Nat) (calls : List (Nat × AppState)) : List Nat :=
  (debounceInvocations wait calls).map (fun inv => inv.1)

/-- Whether the `i`-th configure call is still in flight at time `t`, when
the runtime resolves the `i`-th call after `durations[i]` ms. -/
def configureInFlightAt (wait : Nat) (calls : List (Nat × AppState))
    (durations : List Nat) (i t : Nat) : Bool :=
  match (configureStartTimes wait calls)[i]?, durations[i]? with
  | some st, some d => decide (st ≤ t ∧ t < st + d)
  | _, _ => false

/-- The mutual-exclusion property claimed of the engine: no two configure
calls are ever concurrently in flight, whatever the runtime's latencies. -/
def NoConcurrentConfigure (wait : Nat) (calls : List (Nat × AppState))
    (durations : List Nat) : Prop :=
  ∀ i j t, i ≠ j →
    ¬(configureInFlightAt wait calls durations i t = true
      ∧ configureInFlightAt wait calls durations j t = true)

/-- Counterexample to C8 as stated: two requests 2000 ms apart yield two
invocations, at 1000 ms and 3000 ms; when the runtime takes 5000 ms per
apply, both configure calls are in flight at 3500 ms — the debounce delays
starts but does not await completion, so in-flight applies can overlap. -/
theorem no_concurrent_configure_fails :
    ¬ NoConcurrentConfigure Engine.UPDATE_TIMEOUT_MS
        [(0, sampleState), (2000, sampleState)] [5000, 5000] := by
  intro h
  exact h 0 1 3500 (by decide) ⟨by decide, by decide⟩

/-- C8 amended: distinct configure calls never start within one debounce
window of each other — for time-ordered requests the invocation start times
are pairwise separated by at least the window — though an apply that
outlasts the window can still be in flight when the next one starts. -/
theorem configure_starts_separated (calls : List (Nat × AppState))
    (hs : calls.Pairwise (fun a b => a.1 ≤ b.1)) :
    (configureStartTimes Engine.UPDATE_TIMEOUT_MS calls).Pairwise
      (fun a b => a + Engine.UPDATE_TIMEOUT_MS ≤ b) := by
  unfold configureStartTimes
  rw [List.pairwise_map]
  exact debounce_pairwise Engine.UPDATE_TIMEOUT_MS calls hs

/-- Witness for the amended C8: the two concrete invocation start times are
a full window apart. -/
theorem configure_starts_separated_witness :
    (configureStartTimes Engine.UPDATE_TIMEOUT_MS
        [(0, sampleState), (2000, sampleState)]).Pairwise
      (fun a b => a + Engine.UPDATE_TIMEOUT_MS ≤ b) :=
  configure_starts_separated [(0, sampleState), (2000, sampleState)]
    (by simp)

end Adguard
